import Mathlib

/-!
Shallow embedding of the request-serving gateway in `app.py`: the session
store (`session_memories`), the response cache (`query_cache` with
`get_cached_response` / `cache_response`), the connection-pool statistics
(`connection_stats`, `warm_up_connection`, `maintain_connection_pool`) and
the request orchestrator (`ask_question`, the `POST /ask` handler).

Python dictionaries are modelled as insertion-ordered association lists:
assigning to an existing key overwrites the value in place (keeping the
key's position), assigning to a fresh key appends at the end, and
`next(iter(d))` is the head key.  Wall-clock instants and latencies are
modelled as rationals, supplied explicitly through a `Timing` record; the
remote model (`chain.invoke`) is a function parameter returning
`Except String String`.
-/

namespace LCChat

/-- One question/answer pair stored in a session's memory. -/
structure Exchange where
  input : String
  output : String
deriving DecidableEq

abbrev History := List Exchange

/-- Lookup in a Python-style insertion-ordered dictionary. -/
def dictGet? (key : String) : List (String × α) → Option α
  | [] => none
  | (k, v) :: rest => if k = key then some v else dictGet? key rest

/-- Assignment `d[key] = v` in a Python-style dictionary: an existing key is
overwritten in place (its position in insertion order is unchanged), a fresh
key is appended at the end. -/
def dictSet (key : String) (v : α) : List (String × α) → List (String × α)
  | [] => [(key, v)]
  | (k, w) :: rest =>
      if k = key then (key, v) :: rest else (k, w) :: dictSet key v rest

/-- Membership test `key in d`. -/
def dictHas (key : String) (d : List (String × α)) : Bool :=
  (dictGet? key d).isSome

/-- Modelled from the spec: the per-session window memory
(`ConversationBufferWindowMemory(k=10, return_messages=True)` comes from the
langchain library, which is not part of this repository).  Appending an
exchange keeps only the `k` most recent exchanges: the oldest is dropped
when a new one is appended beyond capacity. -/
def windowAppend (k : Nat) (mem : History) (e : Exchange) : History :=
  let m := mem ++ [e]
  m.drop (m.length - k)

/-- `get_session_memory` from `app.py`: return the existing memory for
`session_id`, creating an empty one (window `k = 10`) if the id is unseen.
Returns the memory's current contents together with the updated store. -/
def get_session_memory (session_id : String) (sessions : List (String × History)) :
    History × List (String × History) :=
  match dictGet? session_id sessions with
  | some h => (h, sessions)
  | none => ([], dictSet session_id [] sessions)

/-- The cache key `f"{question}_{session_id if session_id else 'no_session'}"`:
the question and the session id (or the sentinel `no_session` when the id is
absent or the empty string, which is falsy in Python) joined by an
underscore. -/
def cacheKey (question : String) (session_id : Option String) : String :=
  question ++ "_" ++
    (match session_id with
     | some s => if s = "" then "no_session" else s
     | none => "no_session")

/-- Rounding to two decimal places, as `round(x, 2)` on the reported
timing numbers. -/
def round2 (q : ℚ) : ℚ := (round (q * 100) : ℤ) / 100

/-- The nested `connection_stats` object reported in a response payload. -/
structure ConnStatsSnapshot where
  total_requests : Nat
  connection_reuse_count : Nat
  reuse_percentage : ℚ
  avg_response_time : ℚ
deriving DecidableEq

/-- The `performance` object of a response payload. -/
structure Performance where
  api_call_time : ℚ
  total_time : ℚ
  connection_reused : Bool
  from_cache : Bool
  connection_stats : ConnStatsSnapshot
deriving DecidableEq

/-- The JSON body returned by a successful `POST /ask`. -/
structure ResponseObj where
  answer : String
  chat_history : History
  session_id : String
  performance : Performance
deriving DecidableEq

/-- The response cache `query_cache`. -/
abbrev Cache := List (String × ResponseObj)

/-- `get_cached_response` from `app.py`: look the key up in `query_cache`. -/
def get_cached_response (question : String) (session_id : Option String)
    (cache : Cache) : Option ResponseObj :=
  dictGet? (cacheKey question session_id) cache

/-- Insertion step of `cache_response` with the capacity as a parameter:
store under the key, then if the size exceeds `cap` delete the oldest
(first-inserted) entry. -/
def cacheInsertCap (cap : Nat) (key : String) (resp : ResponseObj) (cache : Cache) :
    Cache :=
  let c := dictSet key resp cache
  if c.length > cap then c.drop 1 else c

/-- `cache_response` from `app.py`: `query_cache[cache_key] = response`, then
if `len(query_cache) > 1000` delete `next(iter(query_cache))`, the
oldest-inserted key. -/
def cache_response (question : String) (resp : ResponseObj)
    (session_id : Option String) (cache : Cache) : Cache :=
  cacheInsertCap 1000 (cacheKey question session_id) resp cache

/-- The global `connection_stats` dictionary. -/
structure ConnStats where
  total_requests : Nat
  connection_reuse_count : Nat
  last_request_time : Option ℚ
  avg_response_time : ℚ
deriving DecidableEq

/-- The `reuse_percentage` reported by `/ask` and `/stats`:
`round(connection_reuse_count / max(1, total_requests - 1) * 100, 2)`. -/
def reuse_percentage (stats : ConnStats) : ℚ :=
  round2 ((stats.connection_reuse_count : ℚ) /
    ((max 1 (stats.total_requests - 1) : ℕ) : ℚ) * 100)

/-- `warm_up_connection` from `app.py`, successful case: after the five
parallel warm-up calls complete (at instant `completion_time`, having taken
`duration` in total), it sets `connection_stats["last_request_time"]` to the
current time and seeds `avg_response_time` with `duration / 5`. -/
def warm_up_connection (completion_time duration : ℚ) (stats : ConnStats) :
    ConnStats :=
  { stats with
    last_request_time := some completion_time
    avg_response_time := duration / 5 }

/-- `maintain_connection_pool` from `app.py`: returns whether a keep-alive
warm-up was submitted, i.e. whether `last_request_time` is set and more than
120 seconds old. -/
def maintain_connection_pool (current_time : ℚ) (stats : ConnStats) : Bool :=
  match stats.last_request_time with
  | some t => decide (current_time - t > 120)
  | none => false

/-- The JSON body of a `POST /ask` request.  `question = none` models a body
with no `question` field; `session_id = none` models an absent session id,
in which case the freshly generated UUID `generated_id` is used. -/
structure AskRequest where
  question : Option String
  session_id : Option String
  new_conversation : Bool
  bypass_cache : Bool
  generated_id : String

/-- The wall-clock instants read by `time.time()` during one request, in
order of occurrence. -/
structure Timing where
  start_time : ℚ
  hit_time : ℚ
  api_call_start : ℚ
  reuse_check_time : ℚ
  api_call_end : ℚ
  end_time : ℚ

/-- The remote model collaborator (`chain.invoke`): from a question and a
history it produces an answer or fails. -/
abbrev Model := String → History → Except String String

/-- The whole process-wide mutable state touched by a request. -/
structure ServerState where
  session_memories : List (String × History)
  query_cache : Cache
  connection_stats : ConnStats
deriving DecidableEq

/-- The HTTP outcome of `POST /ask`: 400, 500, or 200 with a payload. -/
inductive AskResult where
  | badRequest (error : String)
  | serverError (error : String)
  | ok (body : ResponseObj)
deriving DecidableEq

/-- The `POST /ask` handler `ask_question` from `app.py`.  In order:
increment `total_requests`; reject a body without `question` (400); default
the session id to a fresh UUID; unless `bypass_cache` or `new_conversation`,
try the cache and on a hit patch the cached payload's `total_time` and
`from_cache` fields in place and return it; otherwise get-or-create the
session memory, clear it when `new_conversation`, classify connection reuse
(incrementing the counter before the model call), invoke the model (a
failure becomes a 500 after the state mutations made so far), fold the call
latency into the rolling average, update `last_request_time`, append the
exchange to the session window, assemble the payload and insert it into the
cache. -/
def ask_question (req : AskRequest) (tm : Timing) (model : Model)
    (st : ServerState) : AskResult × ServerState :=
  let stats0 := { st.connection_stats with
    total_requests := st.connection_stats.total_requests + 1 }
  let st0 := { st with connection_stats := stats0 }
  match req.question with
  | none => (.badRequest "Missing question in request body", st0)
  | some question =>
    let session_id := req.session_id.getD req.generated_id
    let cached :=
      if !req.bypass_cache && !req.new_conversation then
        get_cached_response question (some session_id) st0.query_cache
      else none
    match cached with
    | some cached_response =>
      let patched := { cached_response with
        performance := { cached_response.performance with
          total_time := round2 (tm.hit_time - tm.start_time)
          from_cache := true } }
      let cache1 := dictSet (cacheKey question (some session_id)) patched
        st0.query_cache
      (.ok patched, { st0 with query_cache := cache1 })
    | none =>
      let memPair := get_session_memory session_id st0.session_memories
      let chat_history := if req.new_conversation then [] else memPair.1
      let sessions2 :=
        if req.new_conversation then dictSet session_id [] memPair.2
        else memPair.2
      let is_connection_reuse :=
        match stats0.last_request_time with
        | some t => decide (tm.reuse_check_time - t < 600)
        | none => false
      let stats1 :=
        if is_connection_reuse then
          { stats0 with
            connection_reuse_count := stats0.connection_reuse_count + 1 }
        else stats0
      match model question chat_history with
      | .error e =>
        (.serverError ("Unexpected error: " ++ e),
          { st0 with session_memories := sessions2, connection_stats := stats1 })
      | .ok answer =>
        let api_call_time := tm.api_call_end - tm.api_call_start
        let stats2 := { stats1 with
          last_request_time := some tm.api_call_end
          avg_response_time :=
            (stats1.avg_response_time * ((stats1.total_requests : ℚ) - 1) +
              api_call_time) / (stats1.total_requests : ℚ) }
        let updated_history := windowAppend 10 chat_history ⟨question, answer⟩
        let sessions3 := dictSet session_id updated_history sessions2
        let response_obj : ResponseObj := {
          answer := answer
          chat_history := updated_history
          session_id := session_id
          performance := {
            api_call_time := round2 api_call_time
            total_time := round2 (tm.end_time - tm.start_time)
            connection_reused := is_connection_reuse
            from_cache := false
            connection_stats := {
              total_requests := stats2.total_requests
              connection_reuse_count := stats2.connection_reuse_count
              reuse_percentage := reuse_percentage stats2
              avg_response_time := round2 stats2.avg_response_time } } }
        let cache1 := cache_response question response_obj (some session_id)
          st0.query_cache
        (.ok response_obj,
          { st0 with
            session_memories := sessions3
            connection_stats := stats2
            query_cache := cache1 })

/-- One `POST /ask` request together with its timing instants and the
behaviour of the remote model during it. -/
structure AskEvent where
  req : AskRequest
  tm : Timing
  model : Model

/-- The remote-model latency of an event, `api_call_time` in `app.py`. -/
def latency (e : AskEvent) : ℚ := e.tm.api_call_end - e.tm.api_call_start

/-- Run a sequence of `POST /ask` requests against the server state. -/
def runAsk (st : ServerState) (evs : List AskEvent) : ServerState :=
  evs.foldl (fun s e => (ask_question e.req e.tm e.model s).2) st

/-! Concrete sample data for scenarios, witnesses and counterexamples. -/

/-- A sample response payload. -/
def r0 : ResponseObj :=
  { answer := "ans"
    chat_history := []
    session_id := "s"
    performance := {
      api_call_time := 1
      total_time := 1
      connection_reused := false
      from_cache := false
      connection_stats := {
        total_requests := 1
        connection_reuse_count := 0
        reuse_percentage := 0
        avg_response_time := 1 } } }

/-- A second sample response payload, distinguishable from `r0`. -/
def r1 : ResponseObj := { r0 with answer := "other" }

/-- The statistics dictionary as the process creates it, before the startup
warm-up runs. -/
def initStats : ConnStats :=
  { total_requests := 0
    connection_reuse_count := 0
    last_request_time := none
    avg_response_time := 0 }

/-- Statistics with a last request recorded at instant 0. -/
def statsA : ConnStats :=
  { total_requests := 0
    connection_reuse_count := 0
    last_request_time := some 0
    avg_response_time := 0 }

/-- A server state with no sessions, an empty cache and fresh statistics. -/
def stEmpty : ServerState :=
  { session_memories := [], query_cache := [], connection_stats := initStats }

/-- A remote model that always answers. -/
def modelOk : Model := fun _ _ => .ok "A"

/-- A remote model that always fails (e.g. a timeout). -/
def modelErr : Model := fun _ _ => .error "boom"

/-- Sample timing instants for one request. -/
def tmA : Timing :=
  { start_time := 0, hit_time := 1, api_call_start := 2, reuse_check_time := 2
    api_call_end := 5, end_time := 6 }

/-- A plain request: question `q`, session `s1`, no flags set. -/
def reqC1 : AskRequest :=
  { question := some "q", session_id := some "s1", new_conversation := false
    bypass_cache := false, generated_id := "g" }

/-- A request body with no `question` field. -/
def reqNoQ : AskRequest :=
  { question := none, session_id := none, new_conversation := false
    bypass_cache := false, generated_id := "g" }

/-- Question strings of pairwise distinct lengths, for the cache-eviction
scenarios. -/
def qkey (i : Nat) : String := String.mk (List.replicate i 'b')

/-- The cache key of `qkey i` under session `s`. -/
def ckey (i : Nat) : String := cacheKey (qkey i) (some "s")

/-- A cache filled to capacity with 1000 distinct keys. -/
def fullCache : Cache := (List.range 1000).map fun i => (ckey i, r0)

/-- The cache after `n` sequential insertions of distinct questions into an
empty cache. -/
def seqInsert (n : Nat) : Cache :=
  (List.range n).foldl (fun d i => cache_response (qkey i) r0 (some "s") d) []

/-- A server state whose cache holds one entry, for question `q` under
session `s`. -/
def stC7 : ServerState :=
  { session_memories := []
    query_cache := [(cacheKey "q" (some "s"), r0)]
    connection_stats := initStats }

/-- A request for the cached question `q` in session `s`, not bypassing the
cache. -/
def reqC7 : AskRequest :=
  { question := some "q", session_id := some "s", new_conversation := false
    bypass_cache := false, generated_id := "g" }

/-- A second set of timing instants. -/
def tmB : Timing :=
  { start_time := 10, hit_time := 12, api_call_start := 13, reuse_check_time := 13
    api_call_end := 17, end_time := 18 }

/-- A server state in which session `s1` already holds one exchange. -/
def stC8 : ServerState :=
  { session_memories := [("s1", [⟨"old", "oldans"⟩])]
    query_cache := []
    connection_stats := initStats }

/-- A request that starts a new conversation in session `s1`. -/
def reqC8 : AskRequest :=
  { question := some "q", session_id := some "s1", new_conversation := true
    bypass_cache := false, generated_id := "g" }

/-- The server state right after the startup warm-up (completed at instant
100, having taken 10 seconds), before any real traffic. -/
def stWarm : ServerState :=
  { session_memories := [], query_cache := []
    connection_stats := warm_up_connection 100 10 initStats }

/-- First real request after startup, 100 seconds after the warm-up. -/
def evR1 : AskEvent :=
  { req := { question := some "q1", session_id := some "s"
             new_conversation := false, bypass_cache := true, generated_id := "g" }
    tm := { start_time := 199, hit_time := 199, api_call_start := 199
            reuse_check_time := 200, api_call_end := 210, end_time := 211 }
    model := modelOk }

/-- Second real request, 90 seconds after the first. -/
def evR2 : AskEvent :=
  { req := { question := some "q2", session_id := some "s"
             new_conversation := false, bypass_cache := true, generated_id := "g" }
    tm := { start_time := 299, hit_time := 299, api_call_start := 299
            reuse_check_time := 300, api_call_end := 310, end_time := 311 }
    model := modelOk }

/-- A cache-bypassing request whose model call takes 1 second. -/
def evA : AskEvent :=
  { req := { question := some "qa", session_id := some "s"
             new_conversation := false, bypass_cache := true, generated_id := "g" }
    tm := { start_time := 10, hit_time := 10, api_call_start := 10
            reuse_check_time := 10, api_call_end := 11, end_time := 12 }
    model := modelOk }

/-- A cache-bypassing request whose model call takes 3 seconds. -/
def evB : AskEvent :=
  { req := { question := some "qb", session_id := some "s"
             new_conversation := false, bypass_cache := true, generated_id := "g" }
    tm := { start_time := 20, hit_time := 20, api_call_start := 20
            reuse_check_time := 20, api_call_end := 23, end_time := 24 }
    model := modelOk }

/-! Basic lemmas about the dictionary model. -/

theorem dictGet?_dictSet_self (k : String) (v : α) (d : List (String × α)) :
    dictGet? k (dictSet k v d) = some v := by
  induction d with
  | nil => simp [dictGet?, dictSet]
  | cons p rest ih =>
    obtain ⟨a, w⟩ := p
    by_cases h : a = k
    · simp [dictSet, dictGet?, h]
    · simp [dictSet, dictGet?, h, ih]

theorem dictGet?_dictSet_ne (k k2 : String) (v : α) (d : List (String × α))
    (hk : k ≠ k2) : dictGet? k (dictSet k2 v d) = dictGet? k d := by
  induction d with
  | nil => simp [dictGet?, dictSet, Ne.symm hk]
  | cons p rest ih =>
    obtain ⟨a, w⟩ := p
    by_cases h : a = k2
    · subst h
      simp [dictSet, dictGet?, Ne.symm hk]
    · simp [dictSet, dictGet?, h, ih]

theorem length_dictSet_le (k : String) (v : α) (d : List (String × α)) :
    (dictSet k v d).length ≤ d.length + 1 := by
  induction d with
  | nil => simp [dictSet]
  | cons p rest ih =>
    obtain ⟨a, w⟩ := p
    by_cases h : a = k
    · simp [dictSet, h]
    · simp only [dictSet, if_neg h, List.length_cons]
      omega

theorem length_dictSet_of_has (k : String) (v : α) (d : List (String × α))
    (h : dictHas k d = true) : (dictSet k v d).length = d.length := by
  induction d with
  | nil => simp [dictHas, dictGet?] at h
  | cons p rest ih =>
    obtain ⟨a, w⟩ := p
    by_cases ha : a = k
    · simp [dictSet, ha]
    · simp only [dictHas, dictGet?, if_neg ha] at h
      simp [dictSet, ha, ih h]

theorem dictSet_of_not_has (k : String) (v : α) (d : List (String × α))
    (h : dictHas k d = false) : dictSet k v d = d ++ [(k, v)] := by
  induction d with
  | nil => simp [dictSet]
  | cons p rest ih =>
    obtain ⟨a, w⟩ := p
    by_cases ha : a = k
    · simp [dictHas, dictGet?, ha] at h
    · simp only [dictHas, dictGet?, if_neg ha] at h
      simp [dictSet, ha, ih h]

theorem dictGet?_append (k : String) (d1 d2 : List (String × α)) :
    dictGet? k (d1 ++ d2) =
      (match dictGet? k d1 with
       | some v => some v
       | none => dictGet? k d2) := by
  induction d1 with
  | nil => simp [dictGet?]
  | cons p rest ih =>
    obtain ⟨a, w⟩ := p
    by_cases h : a = k
    · simp [dictGet?, h]
    · simp [dictGet?, h, ih]

theorem dictGet?_map_of_mem (f : Nat → String) (v : α) (l : List Nat) (j : Nat)
    (hj : j ∈ l) : dictGet? (f j) (l.map fun i => (f i, v)) = some v := by
  induction l with
  | nil => cases hj
  | cons i t ih =>
    by_cases h : f i = f j
    · simp [dictGet?, h]
    · have hjt : j ∈ t := by
        rcases List.mem_cons.mp hj with rfl | hmem
        · exact absurd rfl h
        · exact hmem
      simp [dictGet?, h, ih hjt]

theorem dictGet?_map_of_ne (f : Nat → String) (v : α) (l : List Nat) (key : String)
    (hne : ∀ i ∈ l, f i ≠ key) :
    dictGet? key (l.map fun i => (f i, v)) = none := by
  induction l with
  | nil => simp [dictGet?]
  | cons i t ih =>
    have h1 : f i ≠ key := hne i (List.mem_cons_self i t)
    have h2 : ∀ i ∈ t, f i ≠ key := fun a ha => hne a (List.mem_cons_of_mem _ ha)
    simp [dictGet?, h1, ih h2]

theorem mem_dictSet (k : String) (v : α) (d : List (String × α)) (p : String × α)
    (hp : p ∈ dictSet k v d) : p = (k, v) ∨ p ∈ d := by
  induction d with
  | nil => simpa [dictSet] using hp
  | cons q rest ih =>
    obtain ⟨a, w⟩ := q
    by_cases h : a = k
    · simp only [dictSet, if_pos h] at hp
      rcases List.mem_cons.mp hp with rfl | hmem
      · exact Or.inl rfl
      · exact Or.inr (List.mem_cons_of_mem _ hmem)
    · simp only [dictSet, if_neg h] at hp
      rcases List.mem_cons.mp hp with rfl | hmem
      · exact Or.inr (List.mem_cons_self _ _)
      · rcases ih hmem with h1 | h2
        · exact Or.inl h1
        · exact Or.inr (List.mem_cons_of_mem _ h2)

/-! Lemmas about the session window. -/

theorem windowAppend_length_le (k : Nat) (mem : History) (e : Exchange) :
    (windowAppend k mem e).length ≤ k := by
  simp only [windowAppend, List.length_drop, List.length_append, List.length_cons]
  omega

theorem windowAppend_at_capacity (k : Nat) (mem : History) (e : Exchange)
    (hlen : mem.length = k) (hk : 1 ≤ k) :
    windowAppend k mem e = mem.tail ++ [e] := by
  simp only [windowAppend, List.length_append, List.length_cons, List.length_nil,
    hlen]
  have h1 : k + 1 - k = 1 := by omega
  rw [h1, List.drop_append_of_le_length (by omega), List.drop_one]

theorem windowAppend_below_capacity (k : Nat) (mem : History) (e : Exchange)
    (hlen : mem.length < k) : windowAppend k mem e = mem ++ [e] := by
  simp only [windowAppend, List.length_append, List.length_cons, List.length_nil]
  have h1 : mem.length + 1 - k = 0 := by omega
  rw [h1, List.drop_zero]

theorem windowAppend_lastWindow (k : Nat) (m : History) (e : Exchange)
    (hk : 1 ≤ k) :
    windowAppend k (m.drop (m.length - k)) e =
      (m ++ [e]).drop ((m ++ [e]).length - k) := by
  rcases le_or_lt m.length k with hle | hlt
  · have h0 : m.length - k = 0 := by omega
    rw [h0, List.drop_zero]
    rfl
  · have hw : (m.drop (m.length - k)).length = k := by
      rw [List.length_drop]; omega
    have h1 : (m.drop (m.length - k) ++ [e]).length - k = 1 := by
      rw [List.length_append, hw]; simp
    have h2 : (m ++ [e]).length - k = m.length - k + 1 := by
      simp only [List.length_append, List.length_cons, List.length_nil]; omega
    have e1 : (m.drop (m.length - k) ++ [e]).drop 1 =
        (m.drop (m.length - k)).drop 1 ++ [e] :=
      List.drop_append_of_le_length (by rw [hw]; omega)
    have e2 : (m ++ [e]).drop (m.length - k + 1) = m.drop (m.length - k + 1) ++ [e] :=
      List.drop_append_of_le_length (by omega)
    show (m.drop (m.length - k) ++ [e]).drop
        ((m.drop (m.length - k) ++ [e]).length - k) =
      (m ++ [e]).drop ((m ++ [e]).length - k)
    rw [h1, h2, e1, e2, List.drop_drop]

theorem foldl_windowAppend (k : Nat) (hk : 1 ≤ k) (es : List Exchange) :
    es.foldl (windowAppend k) [] = es.drop (es.length - k) := by
  induction es using List.reverseRecOn with
  | nil => simp
  | append_singleton es e ih =>
    rw [List.foldl_append, List.foldl_cons, List.foldl_nil, ih]
    exact windowAppend_lastWindow k es e hk

/-- Reduction of the cache-hit branch of `ask_question`: when the cache is
not bypassed, no new conversation is requested and the lookup succeeds, the
handler returns the patched entry, writes it back into the cache under the
same key, and only increments the request counter. -/
theorem ask_question_hit (req : AskRequest) (tm : Timing) (model : Model)
    (st : ServerState) (q : String) (entry : ResponseObj)
    (hb : req.bypass_cache = false) (hn : req.new_conversation = false)
    (hq : req.question = some q)
    (hhit : get_cached_response q (some (req.session_id.getD req.generated_id))
      st.query_cache = some entry) :
    ask_question req tm model st =
      (.ok { entry with performance := { entry.performance with
          total_time := round2 (tm.hit_time - tm.start_time), from_cache := true } },
       { session_memories := st.session_memories
         query_cache := dictSet (cacheKey q (some (req.session_id.getD req.generated_id)))
           { entry with performance := { entry.performance with
              total_time := round2 (tm.hit_time - tm.start_time), from_cache := true } }
           st.query_cache
         connection_stats := { st.connection_stats with
           total_requests := st.connection_stats.total_requests + 1 } }) := by
  simp only [ask_question, hq, hb, hn, Bool.not_false, Bool.and_self, if_true, hhit]

/-- C3, counterexample: the claim says two requests whose (question,
session_id) pairs differ in any way never share a cache entry.  But the
cache key is the underscore-joined concatenation, so the distinct pairs
("a_b", "c") and ("a", "b_c") produce the same key "a_b_c": a lookup for
("a_b", "c") returns the entry that was inserted under ("a", "b_c"). -/
theorem claim_C3_counterexample :
    get_cached_response "a_b" (some "c")
      (cache_response "a" r0 (some "b_c") []) = some r0 ∧
    ¬ (("a_b" : String) = "a" ∧ (some "c" : Option String) = some "b_c") := by
  constructor
  · decide
  · decide

/-- C3, amended: a cache lookup for (question, session_id) returns a stored
entry iff that entry was inserted under a pair with character-for-character
equal concatenated key `question ++ "_" ++ session-or-sentinel`.  Pairs
differing only in trailing whitespace or letter case of the question have
different keys and never share an entry, but distinct pairs whose
concatenations coincide (such as ("a_b","c") and ("a","b_c")) do share one. -/
theorem claim_C3_cache_key_exact (q q2 : String) (sid sid2 : Option String)
    (r : ResponseObj) (c : Cache) (hlen : c.length ≤ 999) :
    (get_cached_response q sid (cache_response q2 r sid2 c) =
      if cacheKey q sid = cacheKey q2 sid2 then some r
      else get_cached_response q sid c) ∧
    cacheKey "q " (some "s") ≠ cacheKey "q" (some "s") ∧
    cacheKey "Hello" (some "s") ≠ cacheKey "hello" (some "s") := by
  refine ⟨?_, by decide, by decide⟩
  have hlen2 : (dictSet (cacheKey q2 sid2) r c).length ≤ 1000 :=
    le_trans (length_dictSet_le _ _ _) (by omega)
  have hnd : ¬ (dictSet (cacheKey q2 sid2) r c).length > 1000 := by omega
  show dictGet? (cacheKey q sid)
      (if (dictSet (cacheKey q2 sid2) r c).length > 1000
       then (dictSet (cacheKey q2 sid2) r c).drop 1
       else dictSet (cacheKey q2 sid2) r c) = _
  rw [if_neg hnd]
  by_cases h : cacheKey q sid = cacheKey q2 sid2
  · rw [if_pos h, h, dictGet?_dictSet_self]
  · rw [if_neg h, dictGet?_dictSet_ne _ _ _ _ h]
    rfl

/-- C3, witness for the amended theorem at a concrete input. -/
theorem claim_C3_witness :
    get_cached_response "x" (some "s") (cache_response "x" r0 (some "s") []) =
      if cacheKey "x" (some "s") = cacheKey "x" (some "s") then some r0
      else get_cached_response "x" (some "s") [] :=
  (claim_C3_cache_key_exact "x" "x" (some "s") (some "s") r0 [] (by decide)).1

/-- C6, counterexample: the claim says the last-activity timestamp is never
updated by maintenance warm-up calls and that, while no real traffic
arrives, every polling cycle whose idle check passes re-triggers a warm-up.
In the code `warm_up_connection` itself sets `last_request_time`: starting
from a last request at instant 0, a warm-up completing at instant 130
overwrites the timestamp, so a later polling cycle at instant 180 — even
though 180 seconds have passed with no real traffic — does not trigger. -/
theorem claim_C6_counterexample :
    statsA.last_request_time = some 0 ∧
    (130 : ℚ) - 0 > 120 ∧
    (warm_up_connection 130 10 statsA).last_request_time = some 130 ∧
    (180 : ℚ) - 0 > 120 ∧
    maintain_connection_pool 180 (warm_up_connection 130 10 statsA) = false := by
  refine ⟨rfl, by norm_num, rfl, by norm_num, ?_⟩
  show (match (some (130 : ℚ)) with
        | some t => decide ((180 : ℚ) - t > 120)
        | none => false) = false
  norm_num

/-- C6, amended: `last_request_time` is updated by every real request and
also by every successful warm-up call; a polling cycle triggers a warm-up
iff the timestamp is set and more than 120 seconds old, so after a warm-up
completes, cycles within the next 120 seconds do not re-trigger. -/
theorem claim_C6_warm_up_updates_timestamp :
    (∀ (t d : ℚ) (s : ConnStats),
      (warm_up_connection t d s).last_request_time = some t) ∧
    (∀ (now t : ℚ) (s : ConnStats), s.last_request_time = some t →
      (maintain_connection_pool now s = true ↔ now - t > 120)) ∧
    (∀ (t d now : ℚ) (s : ConnStats), now - t ≤ 120 →
      maintain_connection_pool now (warm_up_connection t d s) = false) := by
  refine ⟨fun t d s => rfl, fun now t s h => ?_, fun t d now s h => ?_⟩
  · simp [maintain_connection_pool, h]
  · simp only [maintain_connection_pool, warm_up_connection]
    simp
    linarith

/-- C6, witness for the amended theorem at a concrete input. -/
theorem claim_C6_witness :
    maintain_connection_pool 100 (warm_up_connection 50 10 statsA) = false :=
  claim_C6_warm_up_updates_timestamp.2.2 50 10 100 statsA (by norm_num)

/-- C10: `total_requests` is incremented at the start of every `POST /ask`
request regardless of outcome, so it counts requests, not remote-model
calls.  After the startup warm-up has set `last_request_time`, two real
requests arriving within the reuse window are both classified as reuse, so
`connection_reuse_count` equals `total_requests` and the reported
`reuse_percentage`, computed as
`connection_reuse_count / max(1, total_requests - 1) * 100`, is 200. -/
theorem claim_C10_request_counter :
    (∀ (req : AskRequest) (tm : Timing) (model : Model) (st : ServerState),
      ((ask_question req tm model st).2).connection_stats.total_requests =
        st.connection_stats.total_requests + 1) ∧
    (runAsk stWarm [evR1, evR2]).connection_stats.connection_reuse_count =
      (runAsk stWarm [evR1, evR2]).connection_stats.total_requests ∧
    (runAsk stWarm [evR1, evR2]).connection_stats.total_requests = 2 ∧
    reuse_percentage (runAsk stWarm [evR1, evR2]).connection_stats = 200 := by
  have hrun : (runAsk stWarm [evR1, evR2]).connection_stats.total_requests = 2 ∧
      (runAsk stWarm [evR1, evR2]).connection_stats.connection_reuse_count = 2 := by
    norm_num [runAsk, ask_question, stWarm, evR1, evR2, modelOk, warm_up_connection,
      initStats, get_session_memory, get_cached_response, cacheKey, dictGet?, dictSet,
      windowAppend, cache_response, cacheInsertCap, reuse_percentage, round2]
  refine ⟨?_, by rw [hrun.1, hrun.2], by rw [hrun.1], ?_⟩
  · intro req tm model st
    simp only [ask_question]
    repeat' split
    all_goals rfl
  · have : reuse_percentage (runAsk stWarm [evR1, evR2]).connection_stats =
        round2 ((2 : ℚ) / ((max 1 (2 - 1) : ℕ) : ℚ) * 100) := by
      rw [reuse_percentage, hrun.1, hrun.2]
      norm_num
    rw [this, round2]
    norm_num

/-- C7: on a `POST /ask` with `bypass_cache=false` and `new_conversation=false`
whose (question, session) pair has a cached entry, the handler returns the
cached payload with its timing fields patched (`total_time` becomes the
current elapsed time, `from_cache` becomes true), the Session Store is left
untouched (no session created, cleared or appended), and the remote model is
never consulted: the whole outcome is the same for every model. -/
theorem claim_C7_cache_hit_frame (req : AskRequest) (tm : Timing)
    (model model2 : Model) (st : ServerState) (q : String) (entry : ResponseObj)
    (hb : req.bypass_cache = false) (hn : req.new_conversation = false)
    (hq : req.question = some q)
    (hhit : get_cached_response q (some (req.session_id.getD req.generated_id))
      st.query_cache = some entry) :
    (ask_question req tm model st).1 = .ok { entry with
      performance := { entry.performance with
        total_time := round2 (tm.hit_time - tm.start_time)
        from_cache := true } } ∧
    (ask_question req tm model st).2.session_memories = st.session_memories ∧
    ask_question req tm model st = ask_question req tm model2 st := by
  rw [ask_question_hit req tm model st q entry hb hn hq hhit,
    ask_question_hit req tm model2 st q entry hb hn hq hhit]
  exact ⟨rfl, rfl, rfl⟩

/-- C7, witness at a concrete cached state. -/
theorem claim_C7_witness :
    (ask_question reqC7 tmA modelOk stC7).2.session_memories = stC7.session_memories :=
  (claim_C7_cache_hit_frame reqC7 tmA modelOk modelErr stC7 "q" r0 rfl rfl rfl
    (by decide)).2.1

/-- C9: a cache hit patches the stored entry itself: after a hit the entry
stored in the cache has `from_cache = true` and its `total_time` overwritten
with the current elapsed time, and after a second hit the stored entry's
`total_time` is overwritten again while its `api_call_time` still carries the
value recorded when the entry was first computed (the patch never touches
it), and `from_cache` remains true. -/
theorem claim_C9_hit_mutates_stored_entry (req req2 : AskRequest) (tm tm2 : Timing)
    (model model2 : Model) (st : ServerState) (q sid : String) (entry : ResponseObj)
    (hb : req.bypass_cache = false) (hn : req.new_conversation = false)
    (hq : req.question = some q) (hs : req.session_id.getD req.generated_id = sid)
    (hb2 : req2.bypass_cache = false) (hn2 : req2.new_conversation = false)
    (hq2 : req2.question = some q) (hs2 : req2.session_id.getD req2.generated_id = sid)
    (hhit : get_cached_response q (some sid) st.query_cache = some entry) :
    get_cached_response q (some sid)
        ((ask_question req tm model st).2).query_cache = some { entry with
      performance := { entry.performance with
        total_time := round2 (tm.hit_time - tm.start_time)
        from_cache := true } } ∧
    get_cached_response q (some sid)
        ((ask_question req2 tm2 model2 (ask_question req tm model st).2).2).query_cache
      = some { entry with
      performance := { entry.performance with
        total_time := round2 (tm2.hit_time - tm2.start_time)
        from_cache := true } } := by
  have h1 := ask_question_hit req tm model st q entry hb hn hq (by rw [hs]; exact hhit)
  have hc1 : get_cached_response q (some sid)
      ((ask_question req tm model st).2).query_cache = some { entry with
    performance := { entry.performance with
      total_time := round2 (tm.hit_time - tm.start_time)
      from_cache := true } } := by
    rw [h1]
    show dictGet? (cacheKey q (some sid))
      (dictSet (cacheKey q (some (req.session_id.getD req.generated_id))) _ _) = _
    rw [hs, dictGet?_dictSet_self]
  refine ⟨hc1, ?_⟩
  have h2 := ask_question_hit req2 tm2 model2 ((ask_question req tm model st).2) q
    ({ entry with performance := { entry.performance with
        total_time := round2 (tm.hit_time - tm.start_time), from_cache := true } })
    hb2 hn2 hq2 (by rw [hs2]; exact hc1)
  rw [h2]
  show dictGet? (cacheKey q (some sid))
    (dictSet (cacheKey q (some (req2.session_id.getD req2.generated_id))) _ _) = _
  rw [hs2, dictGet?_dictSet_self]

/-- C9, witness at a concrete cached state, hit twice. -/
theorem claim_C9_witness :
    get_cached_response "q" (some "s")
        ((ask_question reqC7 tmB modelOk (ask_question reqC7 tmA modelOk stC7).2).2).query_cache
      = some { r0 with
      performance := { r0.performance with
        total_time := round2 (tmB.hit_time - tmB.start_time)
        from_cache := true } } :=
  (claim_C9_hit_mutates_stored_entry reqC7 reqC7 tmA tmB modelOk modelOk stC7 "q" "s"
    r0 rfl rfl rfl rfl rfl rfl rfl rfl (by decide)).2

/-- C8: a `POST /ask` with `new_conversation=true` on a session whose history
is non-empty clears the history before the remote-model call, so the model
receives an empty history: the answer is the model's value at ([]), the whole
outcome agrees for any two models that agree at (question, []), and the
session afterwards holds exactly the one new exchange. -/
theorem claim_C8_new_conversation_empty_history (req : AskRequest) (tm : Timing)
    (model model2 : Model) (st : ServerState) (q sid a : String) (h : History)
    (hq : req.question = some q) (hn : req.new_conversation = true)
    (hs : req.session_id.getD req.generated_id = sid)
    (hold : dictGet? sid st.session_memories = some h) (hne : h ≠ [])
    (hm : model q [] = Except.ok a) (hm2 : model2 q [] = Except.ok a) :
    (∃ body, (ask_question req tm model st).1 = .ok body ∧
      body.answer = a ∧ body.chat_history = [⟨q, a⟩]) ∧
    dictGet? sid ((ask_question req tm model st).2).session_memories =
      some [⟨q, a⟩] ∧
    ask_question req tm model st = ask_question req tm model2 st := by
  have hwin : windowAppend 10 [] (⟨q, a⟩ : Exchange) = [⟨q, a⟩] := by
    simp [windowAppend]
  refine ⟨?_, ?_, ?_⟩
  · simp only [ask_question, hq, hn, Bool.not_true, Bool.and_false,
      Bool.false_eq_true, if_false, if_true, hs, get_session_memory, hold, hm, hwin]
    exact ⟨_, rfl, rfl, rfl⟩
  · simp only [ask_question, hq, hn, Bool.not_true, Bool.and_false,
      Bool.false_eq_true, if_false, if_true, hs, get_session_memory, hold, hm, hwin]
    rw [dictGet?_dictSet_self]
  · simp only [ask_question, hq, hn, Bool.not_true, Bool.and_false,
      Bool.false_eq_true, if_false, if_true, hs, get_session_memory, hold, hm, hm2,
      hwin]

/-- One step of the statistics update on the model path: a request that
reaches the remote model (here: it skips the cache and the model answers)
increments the request counter and folds the call latency into the rolling
average. -/
theorem ask_question_model_path_stats (req : AskRequest) (tm : Timing)
    (model : Model) (st : ServerState) (q : String)
    (hq : req.question = some q)
    (hskip : req.bypass_cache = true ∨ req.new_conversation = true)
    (hm : ∀ h : History, ∃ a, model q h = Except.ok a) :
    ((ask_question req tm model st).2.connection_stats.total_requests =
      st.connection_stats.total_requests + 1) ∧
    ((ask_question req tm model st).2.connection_stats.avg_response_time *
        ((st.connection_stats.total_requests : ℚ) + 1) =
      st.connection_stats.avg_response_time *
          (st.connection_stats.total_requests : ℚ) +
        (tm.api_call_end - tm.api_call_start)) := by
  obtain ⟨a, ha⟩ := hm (if req.new_conversation then [] else
    (get_session_memory (req.session_id.getD req.generated_id) st.session_memories).1)
  have hc : (!req.bypass_cache && !req.new_conversation) = false := by
    rcases hskip with h | h <;> simp [h]
  have hT : ((st.connection_stats.total_requests : ℚ) + 1) ≠ 0 := by positivity
  simp only [ask_question, hq, hc, Bool.false_eq_true, if_false, ha]
  constructor
  · split <;> rfl
  · split <;>
    · dsimp only
      push_cast
      rw [div_mul_cancel₀ _ hT]
      ring

/-- Statistics after a trace of model-path requests: the request counter
grows by the trace length, and the rolling average times the final counter
accumulates the sum of the latencies. -/
theorem runAsk_stats (evs : List AskEvent) : ∀ st : ServerState,
    (∀ e ∈ evs, (∃ q, e.req.question = some q) ∧
      (e.req.bypass_cache = true ∨ e.req.new_conversation = true) ∧
      (∀ q h, ∃ a, e.model q h = Except.ok a)) →
    ((runAsk st evs).connection_stats.total_requests =
        st.connection_stats.total_requests + evs.length) ∧
    ((runAsk st evs).connection_stats.avg_response_time *
        ((st.connection_stats.total_requests : ℚ) + (evs.length : ℚ)) =
      st.connection_stats.avg_response_time *
          (st.connection_stats.total_requests : ℚ) +
        (evs.map latency).sum) := by
  induction evs with
  | nil => intro st h; simp [runAsk]
  | cons e evs ih =>
    intro st h
    obtain ⟨⟨q, hq⟩, hskip, hok⟩ := h e (List.mem_cons_self e evs)
    have hstep := ask_question_model_path_stats e.req e.tm e.model st q hq hskip (hok q)
    have hrest := ih ((ask_question e.req e.tm e.model st).2)
      (fun x hx => h x (List.mem_cons_of_mem e hx))
    simp only [runAsk, List.foldl_cons, List.length_cons, List.map_cons,
      List.sum_cons, latency] at hrest ⊢
    constructor
    · rw [hrest.1, hstep.1]
      omega
    · have h1 := hrest.2
      rw [hstep.1] at h1
      have h2 := hstep.2
      push_cast at h1 h2 ⊢
      ring_nf at h1 h2 ⊢
      linarith [h1, h2]

/-- C2: starting from a fresh counter, after n requests that all reach the
remote model with latencies L1..Ln, the stored rolling average equals the
arithmetic mean (L1+...+Ln)/n; and each step maintains it incrementally as
`avg' = (avg*(n-1) + new_latency)/n` with n the updated total request
count. -/
theorem claim_C2_rolling_average (evs : List AskEvent) (st : ServerState)
    (h0 : st.connection_stats.total_requests = 0)
    (hgood : ∀ e ∈ evs, (∃ q, e.req.question = some q) ∧
      (e.req.bypass_cache = true ∨ e.req.new_conversation = true) ∧
      (∀ q h, ∃ a, e.model q h = Except.ok a))
    (hne : evs ≠ []) :
    ((runAsk st evs).connection_stats.avg_response_time =
      (evs.map latency).sum / (evs.length : ℚ)) ∧
    (∀ (req : AskRequest) (tm : Timing) (model : Model) (s : ServerState) (q : String),
      req.question = some q →
      (req.bypass_cache = true ∨ req.new_conversation = true) →
      (∀ h : History, ∃ a, model q h = Except.ok a) →
      (ask_question req tm model s).2.connection_stats.avg_response_time =
        (s.connection_stats.avg_response_time *
            (((ask_question req tm model s).2.connection_stats.total_requests : ℚ) - 1) +
          (tm.api_call_end - tm.api_call_start)) /
          ((ask_question req tm model s).2.connection_stats.total_requests : ℚ)) := by
  constructor
  · have h := (runAsk_stats evs st
      (fun e he => hgood e he)).2
    rw [h0] at h
    push_cast at h
    have hlen : ((evs.length : ℚ)) ≠ 0 := by
      have h1 : evs.length ≠ 0 := fun hA => hne (List.eq_nil_of_length_eq_zero hA)
      exact_mod_cast h1
    rw [eq_div_iff hlen]
    linarith [h]
  · intro req tm model s q hq hskip hm
    have hstep := ask_question_model_path_stats req tm model s q hq hskip hm
    have hT : ((s.connection_stats.total_requests : ℚ) + 1) ≠ 0 := by positivity
    rw [hstep.1]
    push_cast
    rw [eq_div_iff hT]
    have h2 := hstep.2
    ring_nf at h2 ⊢
    linarith [h2]

/-- C2, witness: two model-path requests with latencies 1 and 3 from a fresh
state leave the rolling average at their mean. -/
theorem claim_C2_witness :
    (runAsk stEmpty [evA, evB]).connection_stats.avg_response_time =
      (([evA, evB].map latency).sum) / (([evA, evB] : List AskEvent).length : ℚ) :=
  (claim_C2_rolling_average [evA, evB] stEmpty rfl
    (by
      intro e he
      rcases List.mem_cons.mp he with rfl | he2
      · exact ⟨⟨"qa", rfl⟩, Or.inl rfl, fun q h => ⟨"A", rfl⟩⟩
      · rcases List.mem_cons.mp he2 with rfl | he3
        · exact ⟨⟨"qb", rfl⟩, Or.inl rfl, fun q h => ⟨"A", rfl⟩⟩
        · cases he3)
    (by simp)).1

theorem dictGet?_mem (k : String) (v : α) (d : List (String × α))
    (h : dictGet? k d = some v) : (k, v) ∈ d := by
  induction d with
  | nil => simp [dictGet?] at h
  | cons p rest ih =>
    obtain ⟨a, w⟩ := p
    by_cases ha : a = k
    · subst ha
      simp only [dictGet?, eq_self_iff_true, if_true, Option.some.injEq] at h
      subst h
      exact List.mem_cons_self _ _
    · simp only [dictGet?, if_neg ha] at h
      exact List.mem_cons_of_mem _ (ih h)

theorem bound_dictSet {n : Nat} (k : String) (v : History)
    (d : List (String × History)) (hd : ∀ p ∈ d, p.2.length ≤ n)
    (hv : v.length ≤ n) : ∀ p ∈ dictSet k v d, p.2.length ≤ n := by
  intro p hp
  rcases mem_dictSet k v d p hp with rfl | hmem
  · exact hv
  · exact hd p hmem

theorem get_session_memory_snd_bound {n : Nat} (sid : String)
    (s : List (String × History)) (hd : ∀ p ∈ s, p.2.length ≤ n) :
    ∀ p ∈ (get_session_memory sid s).2, p.2.length ≤ n := by
  unfold get_session_memory
  cases h : dictGet? sid s with
  | none => exact bound_dictSet sid [] s hd (by simp)
  | some v => exact hd

theorem sessions2_bound {n : Nat} (sid : String) (b : Bool)
    (s : List (String × History)) (hd : ∀ p ∈ s, p.2.length ≤ n) :
    ∀ p ∈ (if b then dictSet sid [] (get_session_memory sid s).2
           else (get_session_memory sid s).2), p.2.length ≤ n := by
  cases b with
  | false => simpa using get_session_memory_snd_bound sid s hd
  | true =>
    simpa using bound_dictSet sid [] _ (get_session_memory_snd_bound sid s hd)
      (by simp)

/-- C4: the per-session window bound: if every session holds at most 10
exchanges then this still holds after any request; appending to a session
already holding 10 exchanges drops the oldest one; and a session built by
successive appends snapshots exactly the 10 most recent exchanges in
arrival order. -/
theorem claim_C4_window_bound (req : AskRequest) (tm : Timing) (model : Model)
    (st : ServerState)
    (hbound : ∀ p ∈ st.session_memories, p.2.length ≤ 10) :
    (∀ p ∈ ((ask_question req tm model st).2).session_memories, p.2.length ≤ 10) ∧
    (∀ (mem : History) (e : Exchange), mem.length = 10 →
      windowAppend 10 mem e = mem.tail ++ [e]) ∧
    (∀ es : List Exchange,
      es.foldl (windowAppend 10) [] = es.drop (es.length - 10)) := by
  refine ⟨?_, fun mem e h => windowAppend_at_capacity 10 mem e h (by omega),
    fun es => foldl_windowAppend 10 (by omega) es⟩
  intro p hp
  revert hp
  simp only [ask_question]
  split
  · exact fun hp => hbound p hp
  · split
    · exact fun hp => hbound p hp
    · split
      · exact fun hp => sessions2_bound _ _ _ hbound p hp
      · exact fun hp => bound_dictSet _ _ _ (sessions2_bound _ _ _ hbound)
          (windowAppend_length_le _ _ _) p hp

/-- C4, witness: appending to a session already holding 10 exchanges drops
the oldest, at a concrete input. -/
theorem claim_C4_witness :
    windowAppend 10 (List.replicate 10 ⟨"x", "y"⟩) ⟨"q", "A"⟩ =
      (List.replicate 10 (⟨"x", "y"⟩ : Exchange)).tail ++ [⟨"q", "A"⟩] :=
  (claim_C4_window_bound reqC1 tmA modelOk stEmpty (by simp [stEmpty])).2.1
    (List.replicate 10 ⟨"x", "y"⟩) ⟨"q", "A"⟩ (by simp)

/-- After an error on the model path, every session is either unchanged or
empty: the target session may have been created empty or cleared before the
model call, and no other session is touched. -/
theorem error_sessions_shape (sid sid2 : String) (b : Bool)
    (s : List (String × History)) :
    dictGet? sid (if b then dictSet sid2 [] (get_session_memory sid2 s).2
        else (get_session_memory sid2 s).2) = dictGet? sid s ∨
    dictGet? sid (if b then dictSet sid2 [] (get_session_memory sid2 s).2
        else (get_session_memory sid2 s).2) = some [] := by
  have hmem : dictGet? sid (get_session_memory sid2 s).2 = dictGet? sid s ∨
      dictGet? sid (get_session_memory sid2 s).2 = some [] := by
    unfold get_session_memory
    cases h : dictGet? sid2 s with
    | some v => exact Or.inl rfl
    | none =>
      by_cases hss : sid = sid2
      · subst hss
        exact Or.inr (dictGet?_dictSet_self _ _ _)
      · exact Or.inl (dictGet?_dictSet_ne _ _ _ _ hss)
  cases b with
  | false => simpa using hmem
  | true =>
    simp only [if_true]
    by_cases hss : sid = sid2
    · subst hss
      exact Or.inr (dictGet?_dictSet_self _ _ _)
    · rw [dictGet?_dictSet_ne _ _ _ _ hss]
      exact hmem

/-- C1, counterexample: the claim says an erroring request leaves the
Session Store exactly as before, with no session created.  But
`get_session_memory` runs before the model call: a request for the unseen
session `s1` whose model call fails (e.g. times out) ends in a 500 and
nevertheless leaves a freshly created session `s1` in the store. -/
theorem claim_C1_counterexample :
    (ask_question reqC1 tmA modelErr stEmpty).1 =
      .serverError "Unexpected error: boom" ∧
    stEmpty.session_memories = [] ∧
    (ask_question reqC1 tmA modelErr stEmpty).2.session_memories =
      [("s1", [])] := by
  refine ⟨rfl, rfl, rfl⟩

/-- C1, amended: a request rejected with 400 (missing question) leaves both
the Session Store and the Response Cache exactly as they were; a request
failing with 500 (model failure) leaves the Response Cache unchanged and
never appends an exchange, but the Session Store may have been touched
before the model call: afterwards every session is either unchanged or
empty (the target session may have been created empty, or cleared when
`new_conversation` was requested). -/
theorem claim_C1_error_paths (req : AskRequest) (tm : Timing) (model : Model)
    (st : ServerState) :
    (∀ e, (ask_question req tm model st).1 = .badRequest e →
      (ask_question req tm model st).2.session_memories = st.session_memories ∧
      (ask_question req tm model st).2.query_cache = st.query_cache) ∧
    (∀ e, (ask_question req tm model st).1 = .serverError e →
      (ask_question req tm model st).2.query_cache = st.query_cache ∧
      ∀ sid, dictGet? sid (ask_question req tm model st).2.session_memories =
          dictGet? sid st.session_memories ∨
        dictGet? sid (ask_question req tm model st).2.session_memories =
          some []) := by
  cases hq : req.question with
  | none =>
    constructor
    · intro e _
      exact ⟨by simp [ask_question, hq], by simp [ask_question, hq]⟩
    · intro e he
      simp [ask_question, hq] at he
  | some q =>
    cases hcached : (if !req.bypass_cache && !req.new_conversation then
        get_cached_response q (some (req.session_id.getD req.generated_id))
          st.query_cache
      else none) with
    | some entry =>
      constructor <;> intro e he <;>
        (simp only [ask_question, hq] at he; rw [hcached] at he; simp at he)
    | none =>
      cases hmr : model q (if req.new_conversation then [] else
          (get_session_memory (req.session_id.getD req.generated_id)
            st.session_memories).1) with
      | ok a =>
        constructor <;> intro e he <;>
          (simp only [ask_question, hq] at he; rw [hcached, hmr] at he; simp at he)
      | error err =>
        constructor
        · intro e he
          simp only [ask_question, hq] at he
          rw [hcached, hmr] at he
          simp at he
        · intro e _
          constructor
          · simp only [ask_question, hq]
            rw [hcached, hmr]
          · intro sid
            simp only [ask_question, hq]
            rw [hcached, hmr]
            exact error_sessions_shape sid (req.session_id.getD req.generated_id)
              req.new_conversation st.session_memories

/-- C1, witness: the 400 path at a concrete missing-question request. -/
theorem claim_C1_witness :
    (ask_question reqNoQ tmA modelOk stEmpty).2.session_memories =
      stEmpty.session_memories ∧
    (ask_question reqNoQ tmA modelOk stEmpty).2.query_cache =
      stEmpty.query_cache :=
  (claim_C1_error_paths reqNoQ tmA modelOk stEmpty).1
    "Missing question in request body" rfl

/-- C8, witness at a concrete state with a non-empty session. -/
theorem claim_C8_witness :
    dictGet? "s1" ((ask_question reqC8 tmA modelOk stC8).2).session_memories =
      some [⟨"q", "A"⟩] :=
  (claim_C8_new_conversation_empty_history reqC8 tmA modelOk modelOk stC8 "q" "s1" "A"
    [⟨"old", "oldans"⟩] rfl rfl rfl (by decide) (by simp) rfl rfl).2.1

/-! Lemmas about the cache keys and the cache at capacity. -/

theorem qkey_length (i : Nat) : (qkey i).length = i := by
  simp [qkey, String.length]

theorem ckey_length (i : Nat) : (ckey i).length = i + 2 := by
  have hs : (if ("s" : String) = "" then "no_session" else "s") = "s" := by decide
  have h1 : ("_" : String).length = 1 := rfl
  have h2 : ("s" : String).length = 1 := rfl
  show (qkey i ++ "_" ++ (if ("s" : String) = "" then "no_session" else "s")).length
      = i + 2
  rw [hs, String.length_append, String.length_append, qkey_length, h1, h2]

theorem ckey_inj {i j : Nat} (h : ckey i = ckey j) : i = j := by
  have hlen := congrArg String.length h
  rw [ckey_length, ckey_length] at hlen
  omega

theorem fullCache_length : fullCache.length = 1000 := by
  simp [fullCache]

theorem dictGet?_fullCache_mem (j : Nat) (hj : j < 1000) :
    dictGet? (ckey j) fullCache = some r0 :=
  dictGet?_map_of_mem ckey r0 (List.range 1000) j (List.mem_range.mpr hj)

theorem dictHas_fullCache_1000 : dictHas (ckey 1000) fullCache = false := by
  have h := dictGet?_map_of_ne ckey r0 (List.range 1000) (ckey 1000)
    (fun i hi heq => absurd (ckey_inj heq)
      (by have := List.mem_range.mp hi; omega))
  simp [dictHas, fullCache, h]

/-- Inserting under a key the cache does not hold, while strictly below
capacity, appends the entry and evicts nothing. -/
theorem cache_response_fresh_small (q : String) (r : ResponseObj)
    (sid : Option String) (d : Cache)
    (hfresh : dictHas (cacheKey q sid) d = false) (hlen : d.length ≤ 999) :
    cache_response q r sid d = d ++ [(cacheKey q sid, r)] := by
  have hset := dictSet_of_not_has (cacheKey q sid) r d hfresh
  show (if (dictSet (cacheKey q sid) r d).length > 1000 then
      (dictSet (cacheKey q sid) r d).drop 1 else dictSet (cacheKey q sid) r d) = _
  rw [hset, if_neg (by simp; omega)]

/-- Inserting under a key the cache does not hold, exactly at capacity,
evicts the single oldest-inserted entry (the head) and appends the new
one. -/
theorem cache_response_fresh_full (q : String) (r : ResponseObj)
    (sid : Option String) (d : Cache)
    (hfresh : dictHas (cacheKey q sid) d = false) (hlen : d.length = 1000) :
    cache_response q r sid d = d.tail ++ [(cacheKey q sid, r)] := by
  have hset := dictSet_of_not_has (cacheKey q sid) r d hfresh
  show (if (dictSet (cacheKey q sid) r d).length > 1000 then
      (dictSet (cacheKey q sid) r d).drop 1 else dictSet (cacheKey q sid) r d) = _
  rw [hset, if_pos (by simp [hlen]),
    List.drop_append_of_le_length (by omega), List.drop_one]

/-- The cache never exceeds its capacity of 1000 entries. -/
theorem cache_response_length_le (q : String) (r : ResponseObj)
    (sid : Option String) (d : Cache) (hlen : d.length ≤ 1000) :
    (cache_response q r sid d).length ≤ 1000 := by
  have hle := length_dictSet_le (cacheKey q sid) r d
  show (if (dictSet (cacheKey q sid) r d).length > 1000 then
      (dictSet (cacheKey q sid) r d).drop 1
    else dictSet (cacheKey q sid) r d).length ≤ 1000
  by_cases h : (dictSet (cacheKey q sid) r d).length > 1000
  · rw [if_pos h]
    simp only [List.length_drop]
    omega
  · rw [if_neg h]
    omega

/-- The first `n ≤ 1000` sequential insertions of distinct questions into an
empty cache keep all of them, in insertion order. -/
theorem seqInsert_eq (n : Nat) (hn : n ≤ 1000) :
    seqInsert n = (List.range n).map fun i => (ckey i, r0) := by
  induction n with
  | zero => rfl
  | succ m ih =>
    have hm : m ≤ 1000 := by omega
    have hstep : seqInsert (m + 1) =
        cache_response (qkey m) r0 (some "s") (seqInsert m) := by
      simp only [seqInsert, List.range_succ, List.foldl_append, List.foldl_cons,
        List.foldl_nil]
    have hfresh : dictHas (ckey m) ((List.range m).map fun i => (ckey i, r0)) =
        false := by
      have h := dictGet?_map_of_ne ckey r0 (List.range m) (ckey m)
        (fun i hi heq => absurd (ckey_inj heq)
          (by have := List.mem_range.mp hi; omega))
      simp [dictHas, h]
    rw [hstep, ih hm,
      cache_response_fresh_small (qkey m) r0 (some "s") _ hfresh (by simp; omega)]
    simp [List.range_succ, ckey]

/-- The 1001st insertion evicts exactly the first-inserted entry. -/
theorem seqInsert_1001 :
    seqInsert 1001 = ((List.range 999).map fun i => (ckey (i + 1), r0))
      ++ [(ckey 1000, r0)] := by
  have hstep : seqInsert 1001 =
      cache_response (qkey 1000) r0 (some "s") (seqInsert 1000) := by
    simp only [seqInsert]
    rw [show (1001 : Nat) = 1000 + 1 from rfl, List.range_succ, List.foldl_append,
      List.foldl_cons, List.foldl_nil]
  have hfreshm : dictHas (cacheKey (qkey 1000) (some "s"))
      ((List.range 1000).map fun i => (ckey i, r0)) = false := dictHas_fullCache_1000
  rw [hstep, seqInsert_eq 1000 (le_refl _),
    cache_response_fresh_full (qkey 1000) r0 (some "s") _ hfreshm (by simp)]
  have hkey : cacheKey (qkey 1000) (some "s") = ckey 1000 := rfl
  have htail : ((List.range 1000).map fun i => (ckey i, r0)).tail =
      (List.range 999).map fun i => (ckey (i + 1), r0) := by
    rw [show (1000 : Nat) = 999 + 1 from rfl, List.range_succ_eq_map]
    simp [List.map_map, Function.comp_def]
  rw [hkey, htail]

/-- C5, counterexample: the claim says any insert occurring at capacity
removes the entry with the earliest insertion order.  But the code evicts
only when the size exceeds capacity after the write: overwriting a key that
is already present in a cache of 1000 entries stores the new payload, keeps
the size at 1000 and removes nothing — the earliest-inserted entry is still
there. -/
theorem claim_C5_counterexample :
    fullCache.length = 1000 ∧
    (cache_response (qkey 999) r1 (some "s") fullCache).length = 1000 ∧
    get_cached_response (qkey 999) (some "s")
      (cache_response (qkey 999) r1 (some "s") fullCache) = some r1 ∧
    get_cached_response (qkey 0) (some "s")
      (cache_response (qkey 999) r1 (some "s") fullCache) = some r0 := by
  have h999 : dictGet? (ckey 999) fullCache = some r0 :=
    dictGet?_fullCache_mem 999 (by omega)
  have hhas : dictHas (ckey 999) fullCache = true := by simp [dictHas, h999]
  have hlen : (dictSet (ckey 999) r1 fullCache).length = 1000 := by
    rw [length_dictSet_of_has _ _ _ hhas, fullCache_length]
  have hins : cache_response (qkey 999) r1 (some "s") fullCache =
      dictSet (ckey 999) r1 fullCache := by
    show (if (dictSet (ckey 999) r1 fullCache).length > 1000 then
        (dictSet (ckey 999) r1 fullCache).drop 1
      else dictSet (ckey 999) r1 fullCache) = _
    rw [if_neg (by omega)]
  refine ⟨fullCache_length, by rw [hins, hlen], ?_, ?_⟩
  · show dictGet? (ckey 999) (cache_response (qkey 999) r1 (some "s") fullCache) =
      some r1
    rw [hins, dictGet?_dictSet_self]
  · show dictGet? (ckey 0) (cache_response (qkey 999) r1 (some "s") fullCache) =
      some r0
    rw [hins,
      dictGet?_dictSet_ne _ _ _ _ (fun h => absurd (ckey_inj h) (by omega))]
    exact dictGet?_fullCache_mem 0 (by omega)

/-- C5, amended: after any insert the cache holds at most 1000 entries; an
insert of a key not already present into a cache at capacity removes exactly
the entry with the earliest insertion order (the head) and appends the new
entry (a lookup hit never changes the order); and 1001 sequential insertions
with distinct keys into an empty cache leave the first-inserted entry absent
and entries 2..1001 present.  An insert whose key is already present
overwrites in place and evicts nothing. -/
theorem claim_C5_fifo_eviction (q : String) (r : ResponseObj)
    (sid : Option String) (d : Cache) :
    (d.length ≤ 1000 → (cache_response q r sid d).length ≤ 1000) ∧
    (d.length = 1000 → dictHas (cacheKey q sid) d = false →
      cache_response q r sid d = d.tail ++ [(cacheKey q sid, r)]) ∧
    get_cached_response (qkey 0) (some "s") (seqInsert 1001) = none ∧
    (∀ j, 1 ≤ j → j ≤ 1000 →
      get_cached_response (qkey j) (some "s") (seqInsert 1001) = some r0) := by
  refine ⟨cache_response_length_le q r sid d,
    fun hlen hfresh => cache_response_fresh_full q r sid d hfresh hlen, ?_, ?_⟩
  · show dictGet? (ckey 0) (seqInsert 1001) = none
    rw [seqInsert_1001, dictGet?_append]
    have h1 : dictGet? (ckey 0)
        ((List.range 999).map fun i => (ckey (i + 1), r0)) = none :=
      dictGet?_map_of_ne (fun i => ckey (i + 1)) r0 (List.range 999) (ckey 0)
        (fun i hi heq => absurd (ckey_inj heq) (by omega))
    rw [h1]
    show (if ckey 1000 = ckey 0 then some r0 else dictGet? (ckey 0) []) = none
    rw [if_neg (fun h => absurd (ckey_inj h) (by omega))]
    rfl
  · intro j hj1 hj2
    show dictGet? (ckey j) (seqInsert 1001) = some r0
    rw [seqInsert_1001, dictGet?_append]
    rcases le_or_lt j 999 with hle | hgt
    · have hmem : j - 1 ∈ List.range 999 := List.mem_range.mpr (by omega)
      have h : dictGet? (ckey j)
          ((List.range 999).map fun i => (ckey (i + 1), r0)) = some r0 := by
        have h0 := dictGet?_map_of_mem (fun i => ckey (i + 1)) r0 (List.range 999)
          (j - 1) hmem
        have hj : j - 1 + 1 = j := by omega
        simpa [hj] using h0
      rw [h]
    · have hj : j = 1000 := by omega
      subst hj
      have h1 : dictGet? (ckey 1000)
          ((List.range 999).map fun i => (ckey (i + 1), r0)) = none :=
        dictGet?_map_of_ne (fun i => ckey (i + 1)) r0 (List.range 999) (ckey 1000)
          (fun i hi heq => absurd (ckey_inj heq)
            (by have := List.mem_range.mp hi; omega))
      rw [h1]
      show (if ckey 1000 = ckey 1000 then some r0 else dictGet? (ckey 1000) [])
          = some r0
      rw [if_pos rfl]

/-- C5, witness: a fresh-key insert into the full cache at a concrete
input. -/
theorem claim_C5_witness :
    cache_response (qkey 1000) r0 (some "s") fullCache =
      fullCache.tail ++ [(cacheKey (qkey 1000) (some "s"), r0)] :=
  (claim_C5_fifo_eviction (qkey 1000) r0 (some "s") fullCache).2.1
    (by simp [fullCache]) dictHas_fullCache_1000

end LCChat
